import Mathlib

/-!
Verification of the orchestration core of the railway-deployment repository.

The Python sources are shallowly embedded as pure Lean functions:

* `src/bot/core/trading_bot.py`          → `TradingBot`, `TradingBot.get_status`, …
* `src/bot/handlers/command_handler.py`  → `handle_command`, `process_commands`,
                                           `update_status`, `cleanup_market_task`
* `src/bot/handlers/market_handler.py`   → `handle_market_data_run`
* `src/bot/main.py`                      → `market_data_handler_run` (monolithic variant)
* `src/bot/infrastructure/redis_manager.py`    → `connectGo` / `connect`
* `src/bot/infrastructure/shutdown_manager.py` → `cancel_tasks`,
                                           `run_shutdown_callbacks`, `shutdown`,
                                           `wait_with_shutdown`
* `src/api/services/bot.py`              → `lpush` / `enqueueAll` (producer side of
                                           the `bot_commands` queue)

Effects (task creation/cancellation, Redis writes) are made explicit as event
lists; the cooperative single-threaded scheduler is reflected by the purely
sequential structure of the loop functions.
-/

/-- Python `str()` of a `bool`: `str(True) = "True"`, `str(False) = "False"`
(note the capital initial). -/
def pyBoolStr (b : Bool) : String :=
  if b then "True" else "False"

/-- Python `str()` of a `float`, modelled on rationals.  On a float with an
integral value Python prints `"<int>.0"` (e.g. `str(0.0) = "0.0"`); the
verified scenarios only exercise integral values, other rationals fall back
to the rational rendering. -/
def pyFloatStr (q : ℚ) : String :=
  if q.den = 1 then toString q.num ++ ".0" else toString q

/-- The two digit characters of `n` (faithful to the zero-padded 2-digit
rendering `datetime` uses for month/day/hour/minute/second, whose values are
below 100 by construction). -/
def pad2 (n : Nat) : List Char :=
  [Nat.digitChar (n / 10 % 10), Nat.digitChar (n % 10)]

/-- The four digit characters of `n` (the zero-padded year field; `datetime`
years are at most 9999). -/
def pad4 (n : Nat) : List Char :=
  [Nat.digitChar (n / 1000 % 10), Nat.digitChar (n / 100 % 10),
   Nat.digitChar (n / 10 % 10), Nat.digitChar (n % 10)]

/-- The six digit characters of `n` (the zero-padded microsecond field, below
10⁶ by construction). -/
def pad6 (n : Nat) : List Char :=
  [Nat.digitChar (n / 100000 % 10), Nat.digitChar (n / 10000 % 10),
   Nat.digitChar (n / 1000 % 10), Nat.digitChar (n / 100 % 10),
   Nat.digitChar (n / 10 % 10), Nat.digitChar (n % 10)]

/-- A UTC wall-clock reading, as produced by `datetime.now(timezone.utc)`. -/
structure UTCTime where
  year : Nat
  month : Nat
  day : Nat
  hour : Nat
  minute : Nat
  second : Nat
  micro : Nat
deriving DecidableEq, Repr

/-- `datetime.isoformat()` of an aware UTC time:
`YYYY-MM-DDTHH:MM:SS[.ffffff]+00:00`; the fractional part is omitted exactly
when the microsecond field is zero. -/
def isoformat (t : UTCTime) : String :=
  String.mk
    (pad4 t.year ++ '-' :: pad2 t.month ++ '-' :: pad2 t.day ++
     'T' :: pad2 t.hour ++ ':' :: pad2 t.minute ++ ':' :: pad2 t.second ++
     (if t.micro = 0 then [] else '.' :: pad6 t.micro) ++
     ['+', '0', '0', ':', '0', '0'])

/-- Recognizer for the tail of an ISO-8601 UTC timestamp: either `+00:00`
directly or a 6-digit fraction followed by `+00:00`. -/
def isoTail (cs : List Char) : Bool :=
  match cs with
  | ['+', '0', '0', ':', '0', '0'] => true
  | ['.', c1, c2, c3, c4, c5, c6, '+', '0', '0', ':', '0', '0'] =>
      [c1, c2, c3, c4, c5, c6].all Char.isDigit
  | _ => false

/-- Recognizer for ISO-8601 UTC timestamps of the shape
`YYYY-MM-DDTHH:MM:SS[.ffffff]+00:00`. -/
def isISO8601UTC (s : String) : Bool :=
  match s.toList with
  | y1 :: y2 :: y3 :: y4 :: '-' :: m1 :: m2 :: '-' :: d1 :: d2 ::
    'T' :: h1 :: h2 :: ':' :: n1 :: n2 :: ':' :: s1 :: s2 :: rest =>
      ([y1, y2, y3, y4, m1, m2, d1, d2, h1, h2, n1, n2, s1, s2].all Char.isDigit)
        && isoTail rest
  | _ => false

/-- `TradingBot` (src/bot/core/trading_bot.py): `running` flag, `positions`
dict and `pnl` float (modelled as a rational). -/
structure TradingBot where
  running : Bool
  positions : List (String × Int)
  pnl : ℚ
deriving DecidableEq, Repr

/-- `TradingBot.__init__`: `running=False`, `positions={}`, `pnl=0.0`. -/
def TradingBot.init : TradingBot :=
  { running := false, positions := [], pnl := 0 }

/-- `TradingBot.start_trading`: sets `running = True`. -/
def TradingBot.start_trading (b : TradingBot) : TradingBot :=
  { b with running := true }

/-- `TradingBot.stop_trading`: sets `running = False`. -/
def TradingBot.stop_trading (b : TradingBot) : TradingBot :=
  { b with running := false }

/-- `TradingBot.is_running` property. -/
def TradingBot.is_running (b : TradingBot) : Bool :=
  b.running

/-- `TradingBot.update_pnl`: `self.pnl += change`. -/
def TradingBot.update_pnl (b : TradingBot) (change : ℚ) : TradingBot :=
  { b with pnl := b.pnl + change }

/-- The status mapping written to the `bot_status` key: string values for
`running`, `pnl`, `positions`, `timestamp`. -/
structure StatusRecord where
  running : String
  pnl : String
  positions : String
  timestamp : String
deriving DecidableEq, Repr

/-- `TradingBot.get_status`: string dictionary
`{running: str(self.running), pnl: str(self.pnl),
positions: str(len(self.positions)), timestamp: now(utc).isoformat()}`.
The wall-clock reading is passed as the explicit parameter `now`. -/
def TradingBot.get_status (b : TradingBot) (now : UTCTime) : StatusRecord :=
  { running := pyBoolStr b.running
    pnl := pyFloatStr b.pnl
    positions := Nat.repr b.positions.length
    timestamp := isoformat now }

/-- Status of the `_market_data_task` asyncio task held by the command
handler: still live, or already completed. -/
inductive TaskState
  | live
  | done
deriving DecidableEq, Repr

/-- State owned by `CommandHandler` (src/bot/handlers/command_handler.py):
the bot object and the optional `_market_data_task`. -/
structure HandlerState where
  bot : TradingBot
  marketTask : Option TaskState
deriving DecidableEq, Repr

/-- Handler state at process start: fresh bot, no market task. -/
def initialHandlerState : HandlerState :=
  { bot := TradingBot.init, marketTask := none }

/-- Observable effects of command dispatch: simulator task creation, the
cancel-and-await of `_cleanup_market_task`, and an `hset` of the status
record to `bot_status`. -/
inductive Event
  | taskCreated
  | taskCancelled
  | statusPublished (rec : StatusRecord)
deriving DecidableEq, Repr

/-- `CommandHandler._update_status`: asks the connection manager for a
connection (`conn` is what `get_connection()` yields); if it is `None` the
method returns without writing, otherwise it writes `bot.get_status()` to
`bot_status` (a raised `RedisError` is caught and logged, so the method
always returns normally). -/
def update_status (conn : Option Unit) (b : TradingBot) (now : UTCTime) :
    List Event :=
  match conn with
  | none => []
  | some _ => [Event.statusPublished (b.get_status now)]

/-- `CommandHandler._cleanup_market_task`: if a market task exists and is not
done, cancel it and await it (absorbing `CancelledError`) and clear the
field; otherwise leave the field untouched. -/
def cleanup_market_task (t : Option TaskState) : Option TaskState × List Event :=
  match t with
  | some TaskState.live => (none, [Event.taskCancelled])
  | t => (t, [])

/-- `CommandHandler._handle_command`: `START` flips `running` on (if off),
creates and registers a market task when none is live, and publishes status;
`STOP` flips `running` off, cancels-and-awaits any live market task, and
publishes status; any other text falls through the if/elif chain and does
nothing.  `conn` is what `get_connection()` yields during the embedded
`_update_status` call. -/
def handle_command (cmd : String) (st : HandlerState) (conn : Option Unit)
    (now : UTCTime) : HandlerState × List Event :=
  if cmd = "START" then
    let b := if st.bot.is_running then st.bot else st.bot.start_trading
    let needNew :=
      match st.marketTask with
      | none => true
      | some TaskState.done => true
      | some TaskState.live => false
    let task := if needNew then some TaskState.live else st.marketTask
    let ev1 := if needNew then [Event.taskCreated] else []
    ({ bot := b, marketTask := task }, ev1 ++ update_status conn b now)
  else if cmd = "STOP" then
    let b := st.bot.stop_trading
    let (task, ev1) := cleanup_market_task st.marketTask
    ({ bot := b, marketTask := task }, ev1 ++ update_status conn b now)
  else
    (st, [])

/-- The dispatch portion of `CommandHandler.process_commands`: commands are
handled strictly one at a time, each dispatch (including any simulator
cancel-and-await) completing before the next command is considered.  Returns
the final handler state and the per-command dispatch log. -/
def process_commands (cmds : List String) (st : HandlerState)
    (conn : Option Unit) (now : UTCTime) :
    HandlerState × List (String × List Event) :=
  match cmds with
  | [] => (st, [])
  | c :: cs =>
      let r1 := handle_command c st conn now
      let r2 := process_commands cs r1.1 conn now
      (r2.1, (c, r1.2) :: r2.2)

/-- Number of `statusPublished` events in a dispatch's event list. -/
def countPublishes (evs : List Event) : Nat :=
  evs.countP fun e =>
    match e with
    | Event.statusPublished _ => true
    | _ => false

/-- Redis `LPUSH` on the `bot_commands` list, as issued by
`BotService.send_command` (src/api/services/bot.py): the new element goes to
the head of the list. -/
def lpush (x : String) (q : List String) : List String :=
  x :: q

/-- Pushing a sequence of commands one by one with `lpush`. -/
def enqueueAll (cs : List String) (q : List String) : List String :=
  cs.foldl (fun acc c => lpush c acc) q

/-- Redis `BRPOP` on a nonempty list: yields the element at the tail (the
opposite end from `LPUSH`) together with the remaining list. -/
def brpop (q : List String) : Option (String × List String) :=
  match q.getLast? with
  | none => none
  | some x => some (x, q.dropLast)

/-- Repeatedly `brpop` until the queue is empty, collecting the commands in
the order the consumer receives them (`fuel` bounds the number of pops; one
pop removes one element, so `q.length` pops empty the queue). -/
def drainFuel : Nat → List String → List String
  | 0, _ => []
  | n + 1, q =>
      match brpop q with
      | none => []
      | some (x, rest) => x :: drainFuel n rest

/-- Everything `brpop` yields from a queue, in consumption order. -/
def drain (q : List String) : List String :=
  drainFuel q.length q

/-- Environment observed by `RedisManager.connect`
(src/bot/infrastructure/redis_manager.py): whether the shutdown event is set
at the top of iteration `i`, whether connection attempt `i` succeeds, and
whether the shutdown event fires during the backoff wait following attempt
`i`. -/
structure ConnEnv where
  shutdownAtTop : Nat → Bool
  attemptOk : Nat → Bool
  shutdownDuringWait : Nat → Bool

/-- Observable events of `RedisManager.connect`: a connection attempt, a
backoff wait that ran to its timeout, or a backoff wait cut short by the
shutdown event. -/
inductive ConnEvent
  | attempt (i : Nat)
  | fullWait (secs : Nat)
  | interruptedWait (secs : Nat)
deriving DecidableEq, Repr

/-- The retry loop of `RedisManager.connect`, from attempt number `attempt`
with current backoff `retryDelay`: at the top of each iteration a set
shutdown event aborts; a successful attempt connects and returns; after a
failed attempt (other than the last) the loop waits `retryDelay` seconds
racing the shutdown event — if the event fires the loop returns immediately,
otherwise the delay doubles (capped at 30) and the loop retries.  Returns
the event trace and whether `self.redis` is non-`None` at exit. -/
def connectGo (env : ConnEnv) (maxRetries attempt retryDelay : Nat) :
    List ConnEvent × Bool :=
  if _h : attempt < maxRetries then
    if env.shutdownAtTop attempt then ([], false)
    else if env.attemptOk attempt then ([ConnEvent.attempt attempt], true)
    else if attempt < maxRetries - 1 then
      if env.shutdownDuringWait attempt then
        ([ConnEvent.attempt attempt, ConnEvent.interruptedWait retryDelay], false)
      else
        let rest := connectGo env maxRetries (attempt + 1) (min (retryDelay * 2) 30)
        (ConnEvent.attempt attempt :: ConnEvent.fullWait retryDelay :: rest.1, rest.2)
    else ([ConnEvent.attempt attempt], false)
  else ([], false)
termination_by maxRetries - attempt
decreasing_by omega

/-- `RedisManager.connect(max_retries, shutdown_event)` starting from
`retry_delay = 1` and attempt 0. -/
def connect (env : ConnEnv) (maxRetries : Nat) : List ConnEvent × Bool :=
  connectGo env maxRetries 0 1

/-- The completed backoff waits of a connect trace, in order. -/
def waitsOf (evs : List ConnEvent) : List Nat :=
  evs.filterMap fun e =>
    match e with
    | ConnEvent.fullWait s => some s
    | _ => none

/-- Number of connection attempts in a connect trace. -/
def attemptsOf (evs : List ConnEvent) : Nat :=
  evs.countP fun e =>
    match e with
    | ConnEvent.attempt _ => true
    | _ => false

/-- The backoff delay before retry `k+1`: starts at 1 second, doubles after
every failed attempt, capped at 30 seconds. -/
def backoffDelay : Nat → Nat
  | 0 => 1
  | k + 1 => min (backoffDelay k * 2) 30

/-- An asyncio task tracked by the `ShutdownManager` registry: an identifier
and whether it has already completed. -/
structure PyTask where
  id : Nat
  task_done : Bool
deriving DecidableEq, Repr

/-- A shutdown callback: an identifier and whether invoking it raises. -/
structure Callback where
  id : Nat
  fails : Bool
deriving DecidableEq, Repr

/-- `ShutdownManager` registry state (src/bot/infrastructure/shutdown_manager.py):
the set of registered tasks and the list of shutdown callbacks in
registration order. -/
structure ShutdownMgr where
  tasks : List PyTask
  callbacks : List Callback
deriving DecidableEq, Repr

/-- Observable events of the shutdown sequence. -/
inductive SDEvent
  | cancelSignalled (id : Nat)
  | taskAwaited (id : Nat)
  | callbackRan (id : Nat)
  | callbackErrorLogged (id : Nat)
deriving DecidableEq, Repr

/-- `ShutdownManager.cancel_tasks`: if the registry is empty do nothing;
otherwise cancel every not-yet-done task and `gather` all registered tasks
with `return_exceptions=True` (awaiting each to completion and absorbing
cancellation and other errors).  Every task's `add_done_callback` discards
it from the registry as it completes, so after the gather the registry is
empty. -/
def cancel_tasks (m : ShutdownMgr) : ShutdownMgr × List SDEvent :=
  if m.tasks = [] then (m, [])
  else
    let cancels := (m.tasks.filter fun t => !t.task_done).map
      fun t => SDEvent.cancelSignalled t.id
    let awaits := m.tasks.map fun t => SDEvent.taskAwaited t.id
    ({ m with tasks := [] }, cancels ++ awaits)

/-- `ShutdownManager.run_shutdown_callbacks`: runs every callback in
registration order, catching and logging each callback's exception so a
failure never prevents the remaining callbacks from running. -/
def run_shutdown_callbacks (m : ShutdownMgr) : List SDEvent :=
  m.callbacks.map fun c =>
    if c.fails then SDEvent.callbackErrorLogged c.id else SDEvent.callbackRan c.id

/-- `ShutdownManager.shutdown`: `cancel_tasks()` first, then
`run_shutdown_callbacks()`. -/
def shutdown (m : ShutdownMgr) : ShutdownMgr × List SDEvent :=
  let r1 := cancel_tasks m
  (r1.1, r1.2 ++ run_shutdown_callbacks r1.1)

/-- Which of the racing waits in `wait_with_shutdown` resolves first:
the shutdown wait, the main activity (with its value), or neither before
the timeout elapses. -/
inductive RaceOutcome (α : Type)
  | shutdownFirst
  | mainFirst (v : α)
  | timedOut
deriving DecidableEq, Repr

/-- How `wait_with_shutdown` returns to its caller. -/
inductive WaitResult (α : Type)
  | value (v : α)
  | cancelledError
  | timeoutError
deriving DecidableEq, Repr

/-- State of one of the raced tasks after `wait_with_shutdown` returns. -/
inductive TaskFinal
  | stillRunning
  | completed
  | cancelled
deriving DecidableEq, Repr

/-- `ShutdownManager.wait_with_shutdown`: `asyncio.wait` with
`FIRST_COMPLETED` (and the optional timeout) yields `done`/`pending`; every
pending task is cancelled and awaited; then, if the shutdown task is done a
`CancelledError` is raised, if the main task is done its awaited value is
returned, and otherwise (timeout: both still pending, hence both cancelled)
a `TimeoutError` is raised.  Returns the caller-visible result and the final
states of the main task and the shutdown-wait task. -/
def wait_with_shutdown (outcome : RaceOutcome α) :
    WaitResult α × TaskFinal × TaskFinal :=
  let mainInDone :=
    match outcome with
    | RaceOutcome.mainFirst _ => true
    | _ => false
  let shutdownInDone :=
    match outcome with
    | RaceOutcome.shutdownFirst => true
    | _ => false
  let mainFinal := if mainInDone then TaskFinal.completed else TaskFinal.cancelled
  let shutdownFinal :=
    if shutdownInDone then TaskFinal.completed else TaskFinal.cancelled
  if shutdownInDone then (WaitResult.cancelledError, mainFinal, shutdownFinal)
  else
    match outcome with
    | RaceOutcome.mainFirst v => (WaitResult.value v, mainFinal, shutdownFinal)
    | _ => (WaitResult.timeoutError, mainFinal, shutdownFinal)

/-- Environment observed by the market-data loops, one sample per loop
iteration `i`: the bot's `running` flag, whether shutdown has been
requested, whether the shutdown event fires during the 1 s wait, whether the
tick body raises an unexpected error, and whether the shutdown event fires
during the 5 s error backoff.  (`BotState` is single-writer, so one sample
of `running` per iteration is faithful.) -/
structure SimEnv where
  running : Nat → Bool
  shutdownRequested : Nat → Bool
  shutdownDuringWait : Nat → Bool
  tickErr : Nat → Bool
  shutdownDuringBackoff : Nat → Bool

/-- Observable events of a market-data loop run. -/
inductive SimEvent
  | ticked (i : Nat)
  | errorLogged (i : Nat)
  | backoffWait
  | stopped
deriving DecidableEq, Repr

/-- `MarketHandler.handle_market_data` (src/bot/handlers/market_handler.py):
the `try`/`except Exception` wraps the WHOLE `while` loop, so an unexpected
error raised by a tick escapes the loop, is logged, is followed by a wait of
up to 5 s racing shutdown, and then control falls through to the final
"handler stopped" log — the run ends.  `fuel` bounds the number of loop
iterations examined. -/
def handle_market_data_run (env : SimEnv) (fuel i : Nat) : List SimEvent :=
  match fuel with
  | 0 => []
  | f + 1 =>
      if env.running i && !env.shutdownRequested i then
        if env.shutdownDuringWait i then [SimEvent.stopped]
        else if env.tickErr i then
          [SimEvent.errorLogged i, SimEvent.backoffWait, SimEvent.stopped]
        else SimEvent.ticked i :: handle_market_data_run env f (i + 1)
      else [SimEvent.stopped]

/-- `TradingBot.market_data_handler` (src/bot/main.py, the monolithic
variant): the `except Exception` sits INSIDE the `while` loop — after
logging and the 5 s backoff the loop CONTINUES unless shutdown fired during
the backoff. -/
def market_data_handler_run (env : SimEnv) (fuel i : Nat) : List SimEvent :=
  match fuel with
  | 0 => []
  | f + 1 =>
      if env.running i && !env.shutdownRequested i then
        if env.shutdownDuringWait i then [SimEvent.stopped]
        else if env.tickErr i then
          if env.shutdownDuringBackoff i then
            [SimEvent.errorLogged i, SimEvent.backoffWait, SimEvent.stopped]
          else
            SimEvent.errorLogged i :: SimEvent.backoffWait ::
              market_data_handler_run env f (i + 1)
        else SimEvent.ticked i :: market_data_handler_run env f (i + 1)
      else [SimEvent.stopped]

/-- Effect of a single command on the `running` flag: `START` sets it,
`STOP` clears it, anything else leaves it unchanged. -/
def stepRunning (r : Bool) (c : String) : Bool :=
  if c = "START" then true else if c = "STOP" then false else r

/-- A command is recognized when it is exactly `START` or `STOP`. -/
def isRecognized (c : String) : Bool :=
  c = "START" || c = "STOP"

/-- The most recent recognized command of a command sequence, if any. -/
def lastRecognized : List String → Option String
  | [] => none
  | c :: cs =>
      match lastRecognized cs with
      | some c' => some c'
      | none => if isRecognized c then some c else none

/-- Whether a raced task is still executing after the race returns. -/
def TaskFinal.isRunning : TaskFinal → Bool
  | TaskFinal.stillRunning => true
  | _ => false

/-- A fixed concrete wall-clock reading used to instantiate theorems. -/
def t0 : UTCTime :=
  { year := 2024, month := 1, day := 2, hour := 3, minute := 4, second := 5,
    micro := 0 }

/-- Expected connect trace when every attempt fails and no shutdown occurs:
`r` remaining attempts starting at attempt `a` with current delay `d`; a
backoff wait follows every failed attempt except the last. -/
def allFailTrace (a d : Nat) : Nat → List ConnEvent
  | 0 => []
  | 1 => [ConnEvent.attempt a]
  | r + 2 =>
      ConnEvent.attempt a :: ConnEvent.fullWait d ::
        allFailTrace (a + 1) (min (d * 2) 30) (r + 1)

/-- Expected connect trace when every attempt fails and the shutdown event
fires during the wait after the `k`-th failed attempt counting from attempt
`a` (so `k` full waits complete and the last wait is cut short). -/
def interruptedTrace (a d : Nat) : Nat → List ConnEvent
  | 0 => [ConnEvent.attempt a, ConnEvent.interruptedWait d]
  | k + 1 =>
      ConnEvent.attempt a :: ConnEvent.fullWait d ::
        interruptedTrace (a + 1) (min (d * 2) 30) k

/-- Market-loop environment in which the bot keeps running, shutdown never
fires, and the tick of iteration 0 raises an unexpected error. -/
def simEnvErrAtZero : SimEnv :=
  { running := fun _ => true
    shutdownRequested := fun _ => false
    shutdownDuringWait := fun _ => false
    tickErr := fun i => decide (i = 0)
    shutdownDuringBackoff := fun _ => false }

theorem handle_command_running (c : String) (st : HandlerState)
    (conn : Option Unit) (now : UTCTime) :
    (handle_command c st conn now).1.bot.running = stepRunning st.bot.running c := by
  by_cases h1 : c = "START"
  · simp [handle_command, stepRunning, h1, TradingBot.is_running,
      TradingBot.start_trading]
    by_cases h2 : st.bot.running <;> simp [h2]
  · by_cases h2 : c = "STOP"
    · simp [handle_command, stepRunning, h1, h2, TradingBot.stop_trading]
    · simp [handle_command, stepRunning, h1, h2]

theorem process_commands_running (cmds : List String) (st : HandlerState)
    (conn : Option Unit) (now : UTCTime) :
    (process_commands cmds st conn now).1.bot.running
      = cmds.foldl stepRunning st.bot.running := by
  induction cmds generalizing st with
  | nil => rfl
  | cons c cs ih =>
      simp only [process_commands, List.foldl_cons]
      rw [ih, handle_command_running]

theorem foldl_stepRunning (cmds : List String) (r : Bool) :
    cmds.foldl stepRunning r
      = (match lastRecognized cmds with
         | some c => decide (c = "START")
         | none => r) := by
  induction cmds generalizing r with
  | nil => rfl
  | cons c cs ih =>
      rw [List.foldl_cons, ih, lastRecognized]
      cases hcs : lastRecognized cs with
      | some c' => simp
      | none =>
          by_cases h1 : c = "START"
          · simp [h1, stepRunning, isRecognized]
          · by_cases h2 : c = "STOP"
            · simp [h1, h2, stepRunning, isRecognized]
            · simp [h1, h2, stepRunning, isRecognized]

/-- C1: starting from the initial state (`running = false`), after a finite
sequence of commands is dispatched by the command loop, `running` is `true`
exactly when the most recent recognized command (`START` or `STOP`) of the
sequence is `START`; it is `false` when the most recent recognized command
is `STOP` or when no recognized command occurred. -/
theorem command_loop_running_iff_last_start (cmds : List String)
    (conn : Option Unit) (now : UTCTime) :
    ((process_commands cmds initialHandlerState conn now).1.bot.running = true
      ↔ lastRecognized cmds = some "START") := by
  rw [process_commands_running, foldl_stepRunning]
  cases hcs : lastRecognized cmds with
  | some c' => simp
  | none => simp [initialHandlerState, TradingBot.init]

theorem digitChar_mod_isDigit (n : Nat) :
    (Nat.digitChar (n % 10)).isDigit = true := by
  have h : n % 10 < 10 := Nat.mod_lt n (by decide)
  have hall : ∀ m, m < 10 → (Nat.digitChar m).isDigit = true := by decide
  exact hall _ h

theorem isoformat_iso (t : UTCTime) : isISO8601UTC (isoformat t) = true := by
  by_cases hm : t.micro = 0 <;>
    simp [isoformat, isISO8601UTC, pad4, pad2, pad6, hm, isoTail,
      digitChar_mod_isDigit, String.toList]

/-- C2 counterexample: on a running bot the published `running` field is
Python's `str(True) = "True"`, not the `"true"` the claim states. -/
theorem get_status_running_capitalized :
    (TradingBot.init.start_trading.get_status t0).running = "True"
      ∧ (TradingBot.init.start_trading.get_status t0).running ≠ "true" := by
  constructor
  · rfl
  · decide

/-- C2 (amended): `get_status` maps `running` to `"True"`/`"False"`
(Python's `str(bool)` capitalization), `pnl` to the decimal-string rendering
of the pnl value, `positions` to the integer-string count of positions, and
`timestamp` to an ISO-8601 UTC string; immediately after a first `START`
(pnl 0.0, no positions) the dispatched events are one task creation and one
status publish carrying `running = "True"`, `pnl = "0.0"`,
`positions = "0"`. -/
theorem get_status_fields (b : TradingBot) (now : UTCTime) :
    (b.get_status now).running = (if b.running then "True" else "False")
      ∧ (b.get_status now).pnl = pyFloatStr b.pnl
      ∧ (b.get_status now).positions = Nat.repr b.positions.length
      ∧ isISO8601UTC (b.get_status now).timestamp = true
      ∧ handle_command "START" initialHandlerState (some ()) now
          = ({ bot := { running := true, positions := [], pnl := 0 },
               marketTask := some TaskState.live },
             [Event.taskCreated,
              Event.statusPublished
                { running := "True", pnl := "0.0", positions := "0",
                  timestamp := isoformat now }]) :=
  ⟨rfl, rfl, rfl, isoformat_iso now, rfl⟩

/-- C9: a command other than exactly `START` and `STOP` is silently ignored:
dispatch returns normally with no events and an unchanged state, and the
command loop goes on to process the remaining commands exactly as it would
have without the unknown command. -/
theorem unknown_command_ignored (cmd : String) (st : HandlerState)
    (conn : Option Unit) (now : UTCTime) (cs : List String)
    (h1 : cmd ≠ "START") (h2 : cmd ≠ "STOP") :
    handle_command cmd st conn now = (st, [])
      ∧ process_commands (cmd :: cs) st conn now
          = ((process_commands cs st conn now).1,
             (cmd, []) :: (process_commands cs st conn now).2) := by
  have hh : handle_command cmd st conn now = (st, []) := by
    simp [handle_command, h1, h2]
  exact ⟨hh, by simp [process_commands, hh]⟩

theorem unknown_command_ignored_witness :
    handle_command "FOO" initialHandlerState (some ()) t0
        = (initialHandlerState, [])
      ∧ process_commands ["FOO"] initialHandlerState (some ()) t0
          = ((process_commands [] initialHandlerState (some ()) t0).1,
             ("FOO", []) :: (process_commands [] initialHandlerState (some ()) t0).2) :=
  unknown_command_ignored "FOO" initialHandlerState (some ()) t0 []
    (by decide) (by decide)

/-- C10: when the connection manager yields no connection, `_update_status`
returns without writing anything; a `START` or `STOP` dispatched while the
store is unreachable completes with zero status publishes while still
mutating the bot state as usual. -/
theorem no_connection_skips_publish (st : HandlerState) (b : TradingBot)
    (now : UTCTime) :
    update_status none b now = []
      ∧ countPublishes (handle_command "START" st none now).2 = 0
      ∧ (handle_command "START" st none now).1.bot.running = true
      ∧ countPublishes (handle_command "STOP" st none now).2 = 0
      ∧ (handle_command "STOP" st none now).1.bot.running = false := by
  refine ⟨rfl, ?_, ?_, ?_, ?_⟩
  · rcases hmt : st.marketTask with _ | ts
    · simp [handle_command, update_status, countPublishes, hmt]
    · cases ts <;>
        simp [handle_command, update_status, countPublishes, hmt]
  · have := handle_command_running "START" st none now
    simp [stepRunning] at this
    exact this
  · rcases hmt : st.marketTask with _ | ts
    · simp [handle_command, update_status, countPublishes, cleanup_market_task, hmt]
    · cases ts <;>
        simp [handle_command, update_status, countPublishes, cleanup_market_task, hmt]
  · have := handle_command_running "STOP" st none now
    simp [stepRunning] at this
    exact this

/-- C6: dispatching `START` while the simulator task is live and the bot is
already running creates and registers no new task and leaves the state
unchanged; the only effect is a single status republish. -/
theorem second_start_is_noop_refresh (st : HandlerState) (now : UTCTime)
    (h1 : st.marketTask = some TaskState.live) (h2 : st.bot.running = true) :
    handle_command "START" st (some ()) now
      = (st, [Event.statusPublished (st.bot.get_status now)]) := by
  simp [handle_command, h1, TradingBot.is_running, h2, update_status]
  rw [← h1]

theorem second_start_is_noop_refresh_witness :
    handle_command "START"
        { bot := { running := true, positions := [], pnl := 0 },
          marketTask := some TaskState.live } (some ()) t0
      = ({ bot := { running := true, positions := [], pnl := 0 },
           marketTask := some TaskState.live },
         [Event.statusPublished
            (TradingBot.get_status { running := true, positions := [], pnl := 0 } t0)]) :=
  second_start_is_noop_refresh _ t0 rfl rfl

/-- C3: with the bot running, shutdown never requested, and the tick of
iteration 0 raising an unexpected error, `MarketHandler.handle_market_data`
(whose `try`/`except` wraps the whole `while` loop) logs the error, takes
the 5 s backoff wait, and then STOPS — no further tick ever happens — while
the monolithic `main.py` loop (whose `except` is inside the `while`)
continues ticking after the same error, as the spec describes. -/
theorem market_error_terminates_handler_variant :
    handle_market_data_run simEnvErrAtZero 5 0
        = [SimEvent.errorLogged 0, SimEvent.backoffWait, SimEvent.stopped]
      ∧ market_data_handler_run simEnvErrAtZero 5 0
          = [SimEvent.errorLogged 0, SimEvent.backoffWait, SimEvent.ticked 1,
             SimEvent.ticked 2, SimEvent.ticked 3, SimEvent.ticked 4] := by
  constructor <;> rfl

theorem enqueueAll_eq (cs : List String) (q : List String) :
    enqueueAll cs q = cs.reverse ++ q := by
  induction cs generalizing q with
  | nil => simp [enqueueAll]
  | cons c cs ih =>
      show enqueueAll cs (c :: q) = (c :: cs).reverse ++ q
      rw [ih]
      simp

theorem drainFuel_concat (n : Nat) (l : List String) (x : String) :
    drainFuel (n + 1) (l ++ [x]) = x :: drainFuel n l := by
  simp [drainFuel, brpop, List.getLast?_concat, List.dropLast_concat]

theorem drain_reverse (cs : List String) : drain cs.reverse = cs := by
  suffices h : ∀ ds : List String, drainFuel ds.length ds.reverse = ds by
    have := h cs
    rwa [drain, List.length_reverse]
  intro ds
  induction ds with
  | nil => rfl
  | cons c ds ih =>
      rw [List.reverse_cons, List.length_cons, drainFuel_concat, ih]

theorem process_commands_fst (cmds : List String) (st : HandlerState)
    (conn : Option Unit) (now : UTCTime) :
    (process_commands cmds st conn now).2.map Prod.fst = cmds := by
  induction cmds generalizing st with
  | nil => rfl
  | cons c cs ih => simp [process_commands, ih]

/-- C5: commands pushed with `LPUSH` by the API service and consumed with
`BRPOP` by the command loop are dispatched in exactly their enqueue order,
one at a time (the sequential dispatch log groups each command with the
events — including any simulator cancel-and-await — completed before the
next pop); for enqueue order `[START, STOP, START]` the dispatch order is
`START, STOP, START` and each dispatch triggers exactly one status
publish. -/
theorem fifo_dispatch_order (cs : List String) (st : HandlerState)
    (conn : Option Unit) (now : UTCTime) :
    drain (enqueueAll cs []) = cs
      ∧ (process_commands (drain (enqueueAll cs [])) st conn now).2.map Prod.fst = cs
      ∧ (process_commands (drain (enqueueAll ["START", "STOP", "START"] []))
            initialHandlerState (some ()) now).2
          = [("START",
              [Event.taskCreated,
               Event.statusPublished
                 (TradingBot.get_status
                   { running := true, positions := [], pnl := 0 } now)]),
             ("STOP",
              [Event.taskCancelled,
               Event.statusPublished
                 (TradingBot.get_status
                   { running := false, positions := [], pnl := 0 } now)]),
             ("START",
              [Event.taskCreated,
               Event.statusPublished
                 (TradingBot.get_status
                   { running := true, positions := [], pnl := 0 } now)])]
      ∧ ((process_commands (drain (enqueueAll ["START", "STOP", "START"] []))
            initialHandlerState (some ()) now).2.map
              fun p => countPublishes p.2) = [1, 1, 1] := by
  have hd : ∀ xs : List String, drain (enqueueAll xs []) = xs := by
    intro xs
    rw [enqueueAll_eq]
    simpa using drain_reverse xs
  have h3 :
      (process_commands (drain (enqueueAll ["START", "STOP", "START"] []))
          initialHandlerState (some ()) now).2
        = [("START",
            [Event.taskCreated,
             Event.statusPublished
               (TradingBot.get_status
                 { running := true, positions := [], pnl := 0 } now)]),
           ("STOP",
            [Event.taskCancelled,
             Event.statusPublished
               (TradingBot.get_status
                 { running := false, positions := [], pnl := 0 } now)]),
           ("START",
            [Event.taskCreated,
             Event.statusPublished
               (TradingBot.get_status
                 { running := true, positions := [], pnl := 0 } now)])] := by
    rw [hd]
    rfl
  refine ⟨hd cs, ?_, h3, ?_⟩
  · rw [hd]
    exact process_commands_fst cs st conn now
  · rw [h3]
    rfl

/-- C7: `shutdown()` first cancels every not-yet-done registered task and
awaits every registered task (absorbing errors), leaving the registry empty
with no registered activity still executing, and only afterwards runs the
shutdown callbacks in registration order, each one's exception being caught
and logged so that every callback gets its turn. -/
theorem shutdown_sequence (m : ShutdownMgr) :
    (shutdown m).1.tasks = []
      ∧ (shutdown m).2 = (cancel_tasks m).2 ++ run_shutdown_callbacks (cancel_tasks m).1
      ∧ (∀ t ∈ m.tasks, SDEvent.taskAwaited t.id ∈ (cancel_tasks m).2)
      ∧ run_shutdown_callbacks (cancel_tasks m).1
          = m.callbacks.map fun c =>
              if c.fails then SDEvent.callbackErrorLogged c.id
              else SDEvent.callbackRan c.id := by
  refine ⟨?_, rfl, ?_, ?_⟩
  · by_cases hm : m.tasks = [] <;> simp [shutdown, cancel_tasks, hm]
  · intro t ht
    have hm : m.tasks ≠ [] := by
      intro h
      rw [h] at ht
      exact absurd ht (List.not_mem_nil t)
    simp [cancel_tasks, hm]
    exact ⟨t, ht, rfl⟩
  · by_cases hm : m.tasks = [] <;> simp [cancel_tasks, hm, run_shutdown_callbacks]

theorem shutdown_sequence_witness :
    (shutdown { tasks := [{ id := 1, task_done := false }],
                callbacks := [{ id := 2, fails := true }, { id := 3, fails := false }] }).1.tasks = []
      ∧ SDEvent.taskAwaited 1 ∈
          (cancel_tasks { tasks := [{ id := 1, task_done := false }],
                          callbacks := [{ id := 2, fails := true },
                                        { id := 3, fails := false }] }).2 :=
  ⟨(shutdown_sequence _).1,
   (shutdown_sequence _).2.2.1 { id := 1, task_done := false } (by decide)⟩

/-- C8: in `wait_with_shutdown`, if the shutdown wait resolves first the
activity is cancelled and a cancellation error is raised to the caller; if
the activity resolves first its value is returned and the shutdown-wait
task is cancelled; if the timeout elapses first a timeout error is raised
and both tasks are cancelled; in every outcome neither raced task is still
running after the call returns. -/
theorem wait_with_shutdown_race (α : Type) (v : α) :
    wait_with_shutdown (RaceOutcome.shutdownFirst : RaceOutcome α)
        = (WaitResult.cancelledError, TaskFinal.cancelled, TaskFinal.completed)
      ∧ wait_with_shutdown (RaceOutcome.mainFirst v)
          = (WaitResult.value v, TaskFinal.completed, TaskFinal.cancelled)
      ∧ wait_with_shutdown (RaceOutcome.timedOut : RaceOutcome α)
          = (WaitResult.timeoutError, TaskFinal.cancelled, TaskFinal.cancelled)
      ∧ (∀ o : RaceOutcome α,
          (wait_with_shutdown o).2.1.isRunning = false
            ∧ (wait_with_shutdown o).2.2.isRunning = false) := by
  refine ⟨rfl, rfl, rfl, ?_⟩
  intro o
  cases o <;> exact ⟨rfl, rfl⟩

theorem waitsOf_nil : waitsOf [] = [] := rfl

theorem waitsOf_cons_attempt (i : Nat) (l : List ConnEvent) :
    waitsOf (ConnEvent.attempt i :: l) = waitsOf l := by
  simp [waitsOf]

theorem waitsOf_cons_fullWait (s : Nat) (l : List ConnEvent) :
    waitsOf (ConnEvent.fullWait s :: l) = s :: waitsOf l := by
  simp [waitsOf]

theorem waitsOf_cons_interruptedWait (s : Nat) (l : List ConnEvent) :
    waitsOf (ConnEvent.interruptedWait s :: l) = waitsOf l := by
  simp [waitsOf]

theorem attemptsOf_nil : attemptsOf [] = 0 := rfl

theorem attemptsOf_cons_attempt (i : Nat) (l : List ConnEvent) :
    attemptsOf (ConnEvent.attempt i :: l) = attemptsOf l + 1 := by
  simp [attemptsOf]

theorem attemptsOf_cons_fullWait (s : Nat) (l : List ConnEvent) :
    attemptsOf (ConnEvent.fullWait s :: l) = attemptsOf l := by
  simp [attemptsOf]

theorem attemptsOf_cons_interruptedWait (s : Nat) (l : List ConnEvent) :
    attemptsOf (ConnEvent.interruptedWait s :: l) = attemptsOf l := by
  simp [attemptsOf]

theorem connectGo_nostep (env : ConnEnv) (m a d : Nat) (ha : ¬ a < m) :
    connectGo env m a d = ([], false) := by
  unfold connectGo
  simp [ha]

theorem connectGo_stopTop (env : ConnEnv) (m a d : Nat) (ha : a < m)
    (hsd : env.shutdownAtTop a = true) :
    connectGo env m a d = ([], false) := by
  unfold connectGo
  simp [ha, hsd]

theorem connectGo_success (env : ConnEnv) (m a d : Nat) (ha : a < m)
    (hsd : env.shutdownAtTop a = false) (hok : env.attemptOk a = true) :
    connectGo env m a d = ([ConnEvent.attempt a], true) := by
  unfold connectGo
  simp [ha, hsd, hok]

theorem connectGo_failLast (env : ConnEnv) (m a d : Nat) (ha : a < m)
    (hsd : env.shutdownAtTop a = false) (hok : env.attemptOk a = false)
    (hl : ¬ a < m - 1) :
    connectGo env m a d = ([ConnEvent.attempt a], false) := by
  unfold connectGo
  simp [ha, hsd, hok, hl]

theorem connectGo_failInterrupted (env : ConnEnv) (m a d : Nat) (ha : a < m)
    (hsd : env.shutdownAtTop a = false) (hok : env.attemptOk a = false)
    (hl : a < m - 1) (hw : env.shutdownDuringWait a = true) :
    connectGo env m a d
      = ([ConnEvent.attempt a, ConnEvent.interruptedWait d], false) := by
  unfold connectGo
  simp [ha, hsd, hok, hl, hw]

theorem connectGo_failContinue (env : ConnEnv) (m a d : Nat) (ha : a < m)
    (hsd : env.shutdownAtTop a = false) (hok : env.attemptOk a = false)
    (hl : a < m - 1) (hw : env.shutdownDuringWait a = false) :
    connectGo env m a d
      = (ConnEvent.attempt a :: ConnEvent.fullWait d ::
           (connectGo env m (a + 1) (min (d * 2) 30)).1,
         (connectGo env m (a + 1) (min (d * 2) 30)).2) := by
  conv_lhs => rw [connectGo]
  simp [ha, hsd, hok, hl, hw]

theorem attemptsOf_connectGo_le (env : ConnEnv) (m : Nat) :
    ∀ (r a d : Nat), m - a = r → attemptsOf (connectGo env m a d).1 ≤ r := by
  intro r
  induction r with
  | zero =>
      intro a d hr
      rw [connectGo_nostep env m a d (by omega)]
      simp [attemptsOf_nil]
  | succ r ih =>
      intro a d hr
      have ha : a < m := by omega
      by_cases hsd : env.shutdownAtTop a = true
      · rw [connectGo_stopTop env m a d ha hsd]
        simp [attemptsOf_nil]
      · rw [Bool.not_eq_true] at hsd
        by_cases hok : env.attemptOk a = true
        · rw [connectGo_success env m a d ha hsd hok]
          simp [attemptsOf_cons_attempt, attemptsOf_nil]
        · rw [Bool.not_eq_true] at hok
          by_cases hl : a < m - 1
          · by_cases hw : env.shutdownDuringWait a = true
            · rw [connectGo_failInterrupted env m a d ha hsd hok hl hw]
              simp [attemptsOf_cons_attempt, attemptsOf_cons_interruptedWait,
                attemptsOf_nil]
            · rw [Bool.not_eq_true] at hw
              have hrec := ih (a + 1) (min (d * 2) 30) (by omega)
              rw [connectGo_failContinue env m a d ha hsd hok hl hw]
              simp only [attemptsOf_cons_attempt, attemptsOf_cons_fullWait]
              omega
          · rw [connectGo_failLast env m a d ha hsd hok hl]
            simp [attemptsOf_cons_attempt, attemptsOf_nil]

theorem connectGo_allFail (env : ConnEnv) (m : Nat)
    (h1 : ∀ i, env.attemptOk i = false) (h2 : ∀ i, env.shutdownAtTop i = false)
    (h3 : ∀ i, env.shutdownDuringWait i = false) :
    ∀ (r a d : Nat), m - a = r → connectGo env m a d = (allFailTrace a d r, false) := by
  intro r
  induction r with
  | zero =>
      intro a d hr
      rw [connectGo_nostep env m a d (by omega)]
      rfl
  | succ r ih =>
      intro a d hr
      have ha : a < m := by omega
      by_cases hl : a < m - 1
      · cases r with
        | zero => omega
        | succ r' =>
            have hrec := ih (a + 1) (min (d * 2) 30) (by omega)
            rw [connectGo_failContinue env m a d ha (h2 a) (h1 a) hl (h3 a), hrec]
            rfl
      · have hr0 : r = 0 := by omega
        subst hr0
        rw [connectGo_failLast env m a d ha (h2 a) (h1 a) hl]
        rfl

theorem connectGo_interrupted (env : ConnEnv) (m k : Nat)
    (h1 : ∀ i, env.attemptOk i = false) (h2 : ∀ i, env.shutdownAtTop i = false)
    (h3 : ∀ i, env.shutdownDuringWait i = decide (i = k)) (hk : k < m - 1) :
    ∀ (r a d : Nat), k - a = r → a ≤ k →
      connectGo env m a d = (interruptedTrace a d r, false) := by
  intro r
  induction r with
  | zero =>
      intro a d hr hak
      have hak' : a = k := by omega
      have ha : a < m := by omega
      have hl : a < m - 1 := by omega
      have hw : env.shutdownDuringWait a = true := by
        rw [h3 a, hak']
        simp
      rw [connectGo_failInterrupted env m a d ha (h2 a) (h1 a) hl hw]
      rfl
  | succ r ih =>
      intro a d hr hak
      have ha : a < m := by omega
      have hl : a < m - 1 := by omega
      have hne : a ≠ k := by omega
      have hw : env.shutdownDuringWait a = false := by
        rw [h3 a]
        simp [hne]
      have hrec := ih (a + 1) (min (d * 2) 30) (by omega) (by omega)
      rw [connectGo_failContinue env m a d ha (h2 a) (h1 a) hl hw, hrec]
      rfl

theorem waitsOf_allFailTrace (r : Nat) :
    ∀ (j a : Nat),
      waitsOf (allFailTrace a (backoffDelay j) r)
        = (List.range (r - 1)).map fun i => backoffDelay (j + i) := by
  induction r with
  | zero => intro j a; rfl
  | succ r ih =>
      intro j a
      cases r with
      | zero => rfl
      | succ r' =>
          have hmin : min (backoffDelay j * 2) 30 = backoffDelay (j + 1) := rfl
          have hfun : (fun i => backoffDelay (j + 1 + i))
              = fun i => backoffDelay (j + (i + 1)) := by
            funext i
            congr 1
            omega
          rw [show r' + 1 + 1 = r' + 2 from rfl]
          simp only [allFailTrace]
          rw [waitsOf_cons_attempt, waitsOf_cons_fullWait, hmin,
            ih (j + 1) (a + 1), show r' + 1 - 1 = r' from rfl, hfun,
            show r' + 2 - 1 = r' + 1 from rfl, List.range_succ_eq_map,
            List.map_cons, List.map_map, Nat.add_zero]
          rfl

theorem waitsOf_interruptedTrace (k : Nat) :
    ∀ (j a : Nat),
      waitsOf (interruptedTrace a (backoffDelay j) k)
        = (List.range k).map fun i => backoffDelay (j + i) := by
  induction k with
  | zero => intro j a; rfl
  | succ k ih =>
      intro j a
      have hmin : min (backoffDelay j * 2) 30 = backoffDelay (j + 1) := rfl
      have hfun : (fun i => backoffDelay (j + 1 + i))
          = fun i => backoffDelay (j + (i + 1)) := by
        funext i
        congr 1
        omega
      simp only [interruptedTrace]
      rw [waitsOf_cons_attempt, waitsOf_cons_fullWait, hmin,
        ih (j + 1) (a + 1), hfun, List.range_succ_eq_map,
        List.map_cons, List.map_map, Nat.add_zero]
      rfl

theorem attemptsOf_allFailTrace (r : Nat) :
    ∀ (a d : Nat), attemptsOf (allFailTrace a d r) = r := by
  induction r with
  | zero => intro a d; rfl
  | succ r ih =>
      intro a d
      cases r with
      | zero => rfl
      | succ r' =>
          rw [show r' + 1 + 1 = r' + 2 from rfl]
          simp only [allFailTrace]
          rw [attemptsOf_cons_attempt, attemptsOf_cons_fullWait,
            ih (a + 1) (min (d * 2) 30)]

theorem attemptsOf_interruptedTrace (k : Nat) :
    ∀ (a d : Nat), attemptsOf (interruptedTrace a d k) = k + 1 := by
  induction k with
  | zero => intro a d; rfl
  | succ k ih =>
      intro a d
      simp only [interruptedTrace]
      rw [attemptsOf_cons_attempt, attemptsOf_cons_fullWait,
        ih (a + 1) (min (d * 2) 30)]

/-- C4: in a run of `connect(maxRetries, shutdownSignal)` where every
attempt fails, at most `maxRetries` attempts are made (first conjunct, for
any environment); with no shutdown, the completed waits between consecutive
attempts are exactly the doubling sequence 1, 2, 4, 8, 16, 30, 30, …
(capped at 30), all `maxRetries` attempts are made, and the handle is left
`Disconnected`; and if the shutdown signal fires during the wait following
attempt `k`, the run ends right there with that wait cut short — `k + 1`
attempts, only the first `k` backoff waits completed, no further attempts
or waits, handle `Disconnected`. -/
theorem connect_backoff_spec (env : ConnEnv) (m : Nat) :
    attemptsOf (connect env m).1 ≤ m
      ∧ ((∀ i, env.attemptOk i = false) → (∀ i, env.shutdownAtTop i = false) →
          (∀ i, env.shutdownDuringWait i = false) →
          waitsOf (connect env m).1 = (List.range (m - 1)).map backoffDelay
            ∧ attemptsOf (connect env m).1 = m
            ∧ (connect env m).2 = false)
      ∧ (∀ k, (∀ i, env.attemptOk i = false) → (∀ i, env.shutdownAtTop i = false) →
          (∀ i, env.shutdownDuringWait i = decide (i = k)) → k < m - 1 →
          (connect env m).1 = interruptedTrace 0 1 k
            ∧ waitsOf (interruptedTrace 0 1 k) = (List.range k).map backoffDelay
            ∧ attemptsOf (interruptedTrace 0 1 k) = k + 1
            ∧ (connect env m).2 = false) := by
  have hzero : (fun i => backoffDelay (0 + i)) = backoffDelay := by
    funext i
    rw [Nat.zero_add]
  refine ⟨?_, ?_, ?_⟩
  · exact attemptsOf_connectGo_le env m m 0 1 (by omega)
  · intro h1 h2 h3
    have h := connectGo_allFail env m h1 h2 h3 m 0 1 (by omega)
    rw [connect, h]
    refine ⟨?_, ?_, rfl⟩
    · have := waitsOf_allFailTrace m 0 0
      rw [hzero] at this
      exact this
    · exact attemptsOf_allFailTrace m 0 1
  · intro k h1 h2 h3 hk
    have h := connectGo_interrupted env m k h1 h2 h3 hk k 0 1 (by omega) (by omega)
    rw [connect, h]
    refine ⟨rfl, ?_, attemptsOf_interruptedTrace k 0 1, rfl⟩
    have := waitsOf_interruptedTrace k 0 0
    rw [hzero] at this
    exact this

theorem connect_backoff_spec_witness :
    waitsOf (connect
        { shutdownAtTop := fun _ => false, attemptOk := fun _ => false,
          shutdownDuringWait := fun _ => false } 7).1 = [1, 2, 4, 8, 16, 30]
      ∧ attemptsOf (connect
          { shutdownAtTop := fun _ => false, attemptOk := fun _ => false,
            shutdownDuringWait := fun _ => false } 7).1 = 7
      ∧ (connect
          { shutdownAtTop := fun _ => false, attemptOk := fun _ => false,
            shutdownDuringWait := fun _ => false } 7).2 = false := by
  have h := (connect_backoff_spec
      { shutdownAtTop := fun _ => false, attemptOk := fun _ => false,
        shutdownDuringWait := fun _ => false } 7).2.1
    (fun _ => rfl) (fun _ => rfl) (fun _ => rfl)
  exact ⟨h.1.trans (by decide), h.2.1, h.2.2⟩
